import Mathlib

/-!
Verification of the VikRenamer batch file-renaming utility
(`cli_tool.py`, `renamer_gui.py`) against its specification.

The Python code is shallowly embedded: file names and paths are `String`s,
the filesystem is the list of existing paths, the per-run operation log is a
list of records, and the per-file rename that may raise an `OSError` is fed
by an explicit failure oracle.  Record timestamps are not modelled: no
specified property depends on them.
-/

namespace VikRenamer

/-! ### Python string primitives (ASCII-faithful)

`str.lower`, `str.upper`, `str.capitalize` and `str.title` act per character
for the ASCII names these claims exercise. -/

def pyLower (s : String) : String := String.mk (s.data.map Char.toLower)

def pyUpper (s : String) : String := String.mk (s.data.map Char.toUpper)

/-- Python `str.capitalize()`: first character uppercased, ALL remaining
characters lowercased. -/
def pyCapitalize (s : String) : String :=
  match s.data with
  | [] => ""
  | c :: cs => String.mk (c.toUpper :: cs.map Char.toLower)

def pyTitleGo : List Char → Bool → List Char
  | [], _ => []
  | c :: cs, prevAlpha =>
      (if prevAlpha then c.toLower else c.toUpper) :: pyTitleGo cs c.isAlpha

/-- Python `str.title()`: each maximal run of letters gets its first letter
uppercased and the rest lowercased. -/
def pyTitle (s : String) : String := String.mk (pyTitleGo s.data false)

/-! ### `re.split(r'[_\-\s]+', stem)`

Separators are underscore, hyphen, and the ASCII whitespace matched by
Python's `\s`.  A maximal run of separators is one split point; a leading or
trailing run contributes an empty leading or trailing segment. -/

def isSep (c : Char) : Bool :=
  c = '_' || c = '-' || c = ' ' || c = '\t' || c = '\n' || c = '\r' ||
  c = '\x0b' || c = '\x0c'

/-- Split at every single separator character (`cur` holds the reversed
characters of the segment being read). -/
def splitSingle : List Char → List Char → List String
  | [], cur => [String.mk cur.reverse]
  | c :: cs, cur =>
      if isSep c then String.mk cur.reverse :: splitSingle cs []
      else splitSingle cs (c :: cur)

/-- Drop the empty segments produced between two adjacent separators: every
`""` except a final one (which records a trailing separator run). -/
def dropEmptyMid : List String → List String
  | [] => []
  | [x] => [x]
  | x :: xs => if x = "" then dropEmptyMid xs else x :: dropEmptyMid xs

/-- `re.split(r'[_\-\s]+', ·)` on a character list: single-character split,
then adjacent-separator empties collapsed.  The head empty (leading
separator run) and a trailing empty are kept, as `re.split` keeps them. -/
def splitRuns (cs : List Char) : List String :=
  match splitSingle cs [] with
  | [] => []
  | w :: ws => w :: dropEmptyMid ws

/-! ### Case-transform strategy (`FileRenamer.rename_case_transform`) -/

/-- `words[0].lower() + ''.join(word.capitalize() for word in words[1:])`
over `words = re.split(r'[_\-\s]+', name_without_ext)`.
(`splitRuns` never returns `[]`; the first branch is unreachable.) -/
def camelStem (stem : String) : String :=
  match splitRuns stem.data with
  | [] => ""
  | w :: ws => pyLower w ++ String.join (ws.map pyCapitalize)

/-- One collected file: parent directory, stem, suffix (with its leading dot,
possibly empty), and the pre-rendered size string used by the `{size}`
placeholder.  `_format_size`'s floating-point rendering itself is outside
every claim, so the rendered string is carried as data. -/
structure FileEntry where
  parent : String
  stem : String
  ext : String
  sizeStr : String
deriving Repr, DecidableEq

/-- Full name of an entry, `stem + suffix`. -/
def FileEntry.name (f : FileEntry) : String := f.stem ++ f.ext

/-- Absolute path of an entry, parent joined with the name. -/
def FileEntry.path (f : FileEntry) : String := f.parent ++ "/" ++ f.stem ++ f.ext

/-- `FileRenamer.rename_case_transform(files, transform)`: transforms the
stem according to the mode, silently passing the stem through on an
unrecognized mode, and reappends the suffix unchanged. -/
def rename_case_transform (files : List FileEntry) (transform : String) : List String :=
  files.map fun f =>
    let newName :=
      if transform = "lower" then pyLower f.stem
      else if transform = "upper" then pyUpper f.stem
      else if transform = "title" then pyTitle f.stem
      else if transform = "camel" then camelStem f.stem
      else f.stem
    newName ++ f.ext

/-- Capitalization as claim C5 words it: first letter uppercased, remainder
of the segment UNCHANGED.  Kept distinct from `pyCapitalize` so the claim's
reading of the code can be compared against the code. -/
def specCapitalizeKeep (s : String) : String :=
  match s.data with
  | [] => ""
  | c :: cs => String.mk (c.toUpper :: cs)

/-- The camel transform exactly as claim C5 states it (remainder of each
later segment left unchanged). -/
def camelClaimStem (stem : String) : String :=
  match splitRuns stem.data with
  | [] => ""
  | w :: ws => pyLower w ++ String.join (ws.map specCapitalizeKeep)

/-- The camel transform as amended: the remainder of each later segment is
lowercased (Python `str.capitalize` semantics). -/
def camelAmendedStem (stem : String) : String :=
  match splitRuns stem.data with
  | [] => ""
  | w :: ws =>
      pyLower w ++ String.join (ws.map fun seg =>
        match seg.data with
        | [] => ""
        | c :: cs => String.mk (c.toUpper :: cs.map Char.toLower))

/-! ### Templated strategy (`FileRenamer.rename_with_pattern`)

The template is embedded as its parsed form: a sequence of literal pieces
and recognized placeholders.  The wall clock is an explicit oracle
`clock : Nat → String × String` giving the formatted `(date, time)` pair
that the two `datetime.now()` calls of iteration `i` observe; the code reads
it afresh inside the loop body, once per file. -/

inductive TemplatePart where
  | lit (s : String)
  | name
  | ext
  | counter
  | date
  | time
  | size
deriving Repr, DecidableEq

/-- `str(i).zfill(3)`. -/
def zfill3 (i : Nat) : String :=
  let s := toString i
  String.mk (List.replicate (3 - s.length) '0') ++ s

def renderPart (f : FileEntry) (i : Nat) (dt : String × String) : TemplatePart → String
  | .lit s => s
  | .name => f.stem
  | .ext => f.ext
  | .counter => zfill3 i
  | .date => dt.1
  | .time => dt.2
  | .size => f.sizeStr

def renderTemplate (pat : List TemplatePart) (f : FileEntry) (i : Nat)
    (dt : String × String) : String :=
  String.join (pat.map (renderPart f i dt))

def rename_with_pattern_go (clock : Nat → String × String) (pat : List TemplatePart) :
    Nat → List FileEntry → List String
  | _, [] => []
  | i, f :: fs => renderTemplate pat f i (clock i) :: rename_with_pattern_go clock pat (i + 1) fs

/-- `FileRenamer.rename_with_pattern(files, pattern)`: `enumerate(files, 1)`,
each iteration substituting the placeholders with that file's data, the
1-based zero-padded counter, and the date/time read from the clock at that
iteration. -/
def rename_with_pattern (clock : Nat → String × String) (pat : List TemplatePart)
    (files : List FileEntry) : List String :=
  rename_with_pattern_go clock pat 1 files

/-! ### Rename executor (`FileRenamer.execute_rename`)

The filesystem is the list of existing paths.  `orc old new = some msg`
means `original_file.rename(new_path)` raises an `OSError` with message
`msg` (the only fallible call inside the `try` body).  `records` are the
entries this call appends to `self.operations_log`; `renames` is a ghost
history of the renames actually performed, each paired with the filesystem
as it stood right before. -/

def fsExists (fs : List String) (p : String) : Bool := fs.contains p

def fsRename (fs : List String) (old new : String) : List String :=
  new :: fs.erase old

structure OpRecord where
  original : String
  new : String
  success : Bool
  error : Option String
deriving Repr, DecidableEq

structure ExecState where
  fs : List String
  records : List OpRecord
  successCount : Nat
  renames : List (List String × String × String)
deriving Repr, DecidableEq

/-- One loop iteration of `execute_rename` on the pair
`(original_file, new_name)`.  Collision (`new_path.exists() and
new_path != original_file`) only logs a warning and `continue`s: the state
is returned unchanged.  A successful record stores the full `new_path`; the
exception record stores the bare `new_name`, as the source does. -/
def execStep (dryRun : Bool) (orc : String → String → Option String)
    (st : ExecState) (p : FileEntry × String) : ExecState :=
  if fsExists st.fs (p.1.parent ++ "/" ++ p.2) = true ∧ p.1.parent ++ "/" ++ p.2 ≠ p.1.path then
    st
  else if dryRun then
    { st with records := st.records ++ [⟨p.1.path, p.1.parent ++ "/" ++ p.2, true, none⟩],
              successCount := st.successCount + 1 }
  else
    match orc p.1.path (p.1.parent ++ "/" ++ p.2) with
    | some msg =>
        { st with records := st.records ++ [⟨p.1.path, p.2, false, some msg⟩] }
    | none =>
        { fs := fsRename st.fs p.1.path (p.1.parent ++ "/" ++ p.2),
          records := st.records ++ [⟨p.1.path, p.1.parent ++ "/" ++ p.2, true, none⟩],
          successCount := st.successCount + 1,
          renames := st.renames ++ [(st.fs, p.1.path, p.1.parent ++ "/" ++ p.2)] }

def execGo (dryRun : Bool) (orc : String → String → Option String) :
    ExecState → List (FileEntry × String) → ExecState
  | st, [] => st
  | st, p :: ps => execGo dryRun orc (execStep dryRun orc st p) ps

/-- `FileRenamer.execute_rename(files, new_names)`: iterates over
`zip(files, new_names)` starting from `success_count = 0` and returns
`success_count == len(files)`. -/
def execute_rename (dryRun : Bool) (orc : String → String → Option String)
    (fs : List String) (files : List FileEntry) (newNames : List String) :
    ExecState × Bool :=
  let st := execGo dryRun orc ⟨fs, [], 0, []⟩ (files.zip newNames)
  (st, st.successCount == files.length)

/-! ### Constructor check (`FileRenamer.__init__`)

The filesystem is split into directory paths and regular-file paths;
`Path.exists()` is membership in either. -/

/-- `FileRenamer.__init__`: raises `FileNotFoundError` when
`self.directory.exists()` is false, and only then. -/
def fileRenamerInit (fsDirs fsFiles : List String) (directory : String) :
    Except String Unit :=
  if fsDirs.contains directory || fsFiles.contains directory then Except.ok ()
  else Except.error ("Directory non trovata: " ++ directory)

/-! ### Operations-log saving (`FileRenamer.save_operations_log`)

The filesystem side effects are reified as a list of effects performed, in
order; the second component is `some msg` when the call raises.  An
unrecognized format falls through both branches and the final
`logging.info(f"... {log_file}")` raises `UnboundLocalError` after the
`logs` directory was already created. -/

inductive LogEffect where
  | mkdirLogs
  | writeFile (name : String) (format : String)
  | logSaved (name : String)
deriving Repr, DecidableEq

def save_operations_log (log : List OpRecord) (timestamp : String)
    (format_type : String) : List LogEffect × Option String :=
  if log = [] then ([], none)
  else if format_type = "json" then
    let n := "operations_log_" ++ timestamp ++ ".json"
    ([.mkdirLogs, .writeFile n "json", .logSaved n], none)
  else if format_type = "csv" then
    let n := "operations_log_" ++ timestamp ++ ".csv"
    ([.mkdirLogs, .writeFile n "csv", .logSaved n], none)
  else
    ([.mkdirLogs], some "UnboundLocalError: local variable referenced before assignment")

/-! ### Executor lemmas -/

/-- A colliding pair (`new_path` exists and differs from the original) is
skipped with the whole state unchanged. -/
theorem execStep_collision (d : Bool) (orc : String → String → Option String)
    (st : ExecState) (p : FileEntry × String)
    (h1 : fsExists st.fs (p.1.parent ++ "/" ++ p.2) = true)
    (h2 : p.1.parent ++ "/" ++ p.2 ≠ p.1.path) :
    execStep d orc st p = st := by
  unfold execStep
  rw [if_pos ⟨h1, h2⟩]

/-- In dry-run mode no step touches the filesystem. -/
theorem execStep_dry_fs (orc : String → String → Option String)
    (st : ExecState) (p : FileEntry × String) :
    (execStep true orc st p).fs = st.fs := by
  unfold execStep
  split
  · rfl
  · rw [if_pos rfl]

/-- In dry-run mode the whole run leaves the filesystem untouched. -/
theorem execGo_dry_fs (orc : String → String → Option String)
    (st : ExecState) (ps : List (FileEntry × String)) :
    (execGo true orc st ps).fs = st.fs := by
  induction ps generalizing st with
  | nil => rfl
  | cons p ps ih => rw [execGo, ih, execStep_dry_fs]

/-- In dry-run mode, when no pair's target collides with the (unchanging)
filesystem, every pair appends exactly its successful record. -/
theorem execGo_dry_records (orc : String → String → Option String)
    (st : ExecState) (ps : List (FileEntry × String))
    (h : ∀ p ∈ ps, ¬(fsExists st.fs (p.1.parent ++ "/" ++ p.2) = true ∧
          p.1.parent ++ "/" ++ p.2 ≠ p.1.path)) :
    (execGo true orc st ps).records =
      st.records ++ ps.map (fun p => ⟨p.1.path, p.1.parent ++ "/" ++ p.2, true, none⟩) := by
  induction ps generalizing st with
  | nil => simp [execGo]
  | cons p ps ih =>
      have hp := h p (List.mem_cons_self p ps)
      have hstep : execStep true orc st p =
          { st with records := st.records ++ [⟨p.1.path, p.1.parent ++ "/" ++ p.2, true, none⟩],
                    successCount := st.successCount + 1 } := by
        unfold execStep
        rw [if_neg hp, if_pos rfl]
      rw [execGo, hstep, ih]
      · simp
      · intro q hq
        exact h q (List.mem_cons_of_mem p hq)

/-- `success_count` always equals the number of successful records this call
has appended. -/
theorem execGo_successCount (d : Bool) (orc : String → String → Option String)
    (st : ExecState) (ps : List (FileEntry × String))
    (h : st.successCount = st.records.countP (fun r => r.success)) :
    (execGo d orc st ps).successCount =
      (execGo d orc st ps).records.countP (fun r => r.success) := by
  induction ps generalizing st with
  | nil => exact h
  | cons p ps ih =>
      rw [execGo]
      apply ih
      by_cases hc : fsExists st.fs (p.1.parent ++ "/" ++ p.2) = true ∧
          p.1.parent ++ "/" ++ p.2 ≠ p.1.path
      · rw [execStep_collision d orc st p hc.1 hc.2]
        exact h
      · unfold execStep
        rw [if_neg hc]
        split
        · simp [List.countP_append, h]
        · split
          · simp [List.countP_append, h]
          · simp [List.countP_append, h]

/-- Every rename the executor has actually performed was safe: if its target
existed in the filesystem of that step, the target was the original path
itself. -/
theorem execGo_renames_safe (d : Bool) (orc : String → String → Option String)
    (st : ExecState) (ps : List (FileEntry × String))
    (h : ∀ r ∈ st.renames, fsExists r.1 r.2.2 = true → r.2.2 = r.2.1) :
    ∀ r ∈ (execGo d orc st ps).renames, fsExists r.1 r.2.2 = true → r.2.2 = r.2.1 := by
  induction ps generalizing st with
  | nil => exact h
  | cons p ps ih =>
      rw [execGo]
      apply ih
      by_cases hc : fsExists st.fs (p.1.parent ++ "/" ++ p.2) = true ∧
          p.1.parent ++ "/" ++ p.2 ≠ p.1.path
      · rw [execStep_collision d orc st p hc.1 hc.2]
        exact h
      · unfold execStep
        rw [if_neg hc]
        intro r hr
        split at hr
        · exact h r hr
        · split at hr
          · exact h r hr
          · rcases List.mem_append.mp hr with hold | hnew
            · exact h r hold
            · rcases List.mem_singleton.mp hnew with rfl
              intro hex
              by_contra hne
              exact hc ⟨hex, hne⟩

/-! ### Claims about the rename executor -/

/-- C1, counterexample: on a collision (`d/b.txt` exists and differs from
`d/a.txt`) the executor appends NO Operation Record at all — the operations
log stays empty, not "one failed/skipped record for that pair". -/
theorem collision_record_claim_cex :
    fsExists ["d/b.txt", "d/a.txt"] ("d" ++ "/" ++ "b.txt") = true ∧
    ("d" ++ "/" ++ "b.txt" : String) ≠ FileEntry.path ⟨"d", "a", ".txt", ""⟩ ∧
    (execute_rename false (fun _ _ => none) ["d/b.txt", "d/a.txt"]
        [⟨"d", "a", ".txt", ""⟩] ["b.txt"]).1.records = [] := by
  decide

/-- C1 (amended): for a pair whose computed target path exists and differs
from the original path, the executor only warns and moves on: the step
leaves the whole state unchanged — no rename and also NO Operation Record is
appended — and execution continues with the remaining pairs. -/
theorem collision_skipped_without_record (d : Bool)
    (orc : String → String → Option String) (st : ExecState)
    (f : FileEntry) (n : String) (ps : List (FileEntry × String))
    (h1 : fsExists st.fs (f.parent ++ "/" ++ n) = true)
    (h2 : f.parent ++ "/" ++ n ≠ f.path) :
    execStep d orc st (f, n) = st ∧
    execGo d orc st ((f, n) :: ps) = execGo d orc st ps := by
  have hs := execStep_collision d orc st (f, n) h1 h2
  exact ⟨hs, by rw [execGo, hs]⟩

theorem collision_skipped_without_record_wit :
    execStep false (fun _ _ => none)
        ⟨["d/b.txt", "d/a.txt"], [], 0, []⟩ (⟨"d", "a", ".txt", ""⟩, "b.txt") =
      ⟨["d/b.txt", "d/a.txt"], [], 0, []⟩ ∧
    execGo false (fun _ _ => none) ⟨["d/b.txt", "d/a.txt"], [], 0, []⟩
        [(⟨"d", "a", ".txt", ""⟩, "b.txt")] =
      execGo false (fun _ _ => none) ⟨["d/b.txt", "d/a.txt"], [], 0, []⟩ [] :=
  collision_skipped_without_record false (fun _ _ => none)
    ⟨["d/b.txt", "d/a.txt"], [], 0, []⟩ ⟨"d", "a", ".txt", ""⟩ "b.txt" []
    (by decide) (by decide)

/-- C2, counterexample: in dry-run mode a colliding pair still produces NO
Operation Record, so a one-pair plan whose target exists yields zero records
rather than "exactly one successful record per input pair". -/
theorem dry_run_one_record_claim_cex :
    fsExists ["d/b.txt", "d/a.txt"] ("d" ++ "/" ++ "b.txt") = true ∧
    (execute_rename true (fun _ _ => none) ["d/b.txt", "d/a.txt"]
        [⟨"d", "a", ".txt", ""⟩] ["b.txt"]).1.records.length = 0 ∧
    ([⟨"d", "a", ".txt", ""⟩] : List FileEntry).length = 1 := by
  decide

/-- C2 (amended): dry-run execution never mutates the filesystem (the CLI
executor performs no backup copy at all, and the rename is guarded by
`if not self.dry_run`), and it appends exactly one successful Operation
Record per input pair provided no pair's target collides; colliding pairs
are skipped without a record. -/
theorem dry_run_no_mutation_records (orc : String → String → Option String)
    (fs : List String) (files : List FileEntry) (names : List String) :
    (execute_rename true orc fs files names).1.fs = fs ∧
    ((∀ p ∈ files.zip names,
        ¬(fsExists fs (p.1.parent ++ "/" ++ p.2) = true ∧
          p.1.parent ++ "/" ++ p.2 ≠ p.1.path)) →
      (execute_rename true orc fs files names).1.records =
        (files.zip names).map
          (fun p => ⟨p.1.path, p.1.parent ++ "/" ++ p.2, true, none⟩)) := by
  constructor
  · exact execGo_dry_fs orc ⟨fs, [], 0, []⟩ (files.zip names)
  · intro h
    have hr := execGo_dry_records orc ⟨fs, [], 0, []⟩ (files.zip names) h
    simpa using hr

theorem dry_run_no_mutation_records_wit :
    (execute_rename true (fun _ _ => none) ["d/a.txt"]
        [⟨"d", "a", ".txt", ""⟩] ["c.txt"]).1.fs = ["d/a.txt"] ∧
    (execute_rename true (fun _ _ => none) ["d/a.txt"]
        [⟨"d", "a", ".txt", ""⟩] ["c.txt"]).1.records =
      ([(⟨"d", "a", ".txt", ""⟩, "c.txt")] : List (FileEntry × String)).map
        (fun p => ⟨p.1.path, p.1.parent ++ "/" ++ p.2, true, none⟩) := by
  have h := dry_run_no_mutation_records (fun _ _ => none) ["d/a.txt"]
    [⟨"d", "a", ".txt", ""⟩] ["c.txt"]
  exact ⟨h.1, h.2 (by decide)⟩

/-- C3: at no step does the executor rename onto a target that already
exists and differs from the original — every rename in the performed-rename
history whose target existed in that step's filesystem was a rename of a
path onto itself — and a colliding pair's step leaves the filesystem
unchanged. -/
theorem never_renames_onto_existing (d : Bool)
    (orc : String → String → Option String) (fs : List String)
    (files : List FileEntry) (names : List String) :
    (∀ r ∈ (execute_rename d orc fs files names).1.renames,
      fsExists r.1 r.2.2 = true → r.2.2 = r.2.1) ∧
    (∀ (st : ExecState) (p : FileEntry × String),
      fsExists st.fs (p.1.parent ++ "/" ++ p.2) = true →
      p.1.parent ++ "/" ++ p.2 ≠ p.1.path →
      (execStep d orc st p).fs = st.fs) := by
  constructor
  · exact execGo_renames_safe d orc ⟨fs, [], 0, []⟩ (files.zip names) (by simp)
  · intro st p h1 h2
    rw [execStep_collision d orc st p h1 h2]

theorem never_renames_onto_existing_wit :
    ("d/a.txt" : String) = "d/a.txt" ∧
    (execStep false (fun _ _ => none)
        ⟨["d/b.txt", "d/a.txt"], [], 0, []⟩ (⟨"d", "a", ".txt", ""⟩, "b.txt")).fs =
      ["d/b.txt", "d/a.txt"] := by
  have h := never_renames_onto_existing false (fun _ _ => none) ["d/a.txt"]
    [⟨"d", "a", ".txt", ""⟩] ["a.txt"]
  exact ⟨h.1 (["d/a.txt"], "d/a.txt", "d/a.txt") (by decide) (by decide),
         h.2 ⟨["d/b.txt", "d/a.txt"], [], 0, []⟩ (⟨"d", "a", ".txt", ""⟩, "b.txt")
           (by decide) (by decide)⟩

/-- C4: `execute_rename` returns `True` exactly when the number of
successful Operation Records it appended equals the number of files in the
plan — i.e. every pair produced a successful record; a skipped collision
(no record) or a failure record makes it `False`. -/
theorem overall_success_iff_all_ok (d : Bool)
    (orc : String → String → Option String) (fs : List String)
    (files : List FileEntry) (names : List String) :
    (execute_rename d orc fs files names).2 = true ↔
      (execute_rename d orc fs files names).1.records.countP (fun r => r.success) =
        files.length := by
  unfold execute_rename
  rw [beq_iff_eq, execGo_successCount d orc ⟨fs, [], 0, []⟩ (files.zip names) rfl]

/-! ### Claims about the case-transform strategy -/

/-- C5, counterexample: Python `str.capitalize` lowercases the remainder of
a segment, so the stem `foo_BAR` becomes `fooBar`, not the `fooBAR` the
claim's reading (remainder unchanged) predicts. -/
theorem camel_capitalize_claim_cex :
    rename_case_transform [⟨"d", "foo_BAR", ".txt", ""⟩] "camel" = ["fooBar.txt"] ∧
    camelClaimStem "foo_BAR" ++ ".txt" = "fooBAR.txt" ∧
    ("fooBar.txt" : String) ≠ "fooBAR.txt" := by
  decide

/-- C5 (amended): the camel transform splits the stem on separator runs,
lowercases the first segment entirely, renders every later segment with its
first letter uppercased and the REMAINING letters lowercased, concatenates
with no separator, and reappends the suffix unchanged. -/
theorem camel_transform_amended (files : List FileEntry) :
    rename_case_transform files "camel" =
      files.map (fun f => camelAmendedStem f.stem ++ f.ext) :=
  rfl

/-- C8, counterexample: `camelStem "foo_bar" = "fooBar"` contains no
separator, yet applying the transform again yields `"foobar"`, not
`"fooBar"` — the first (and only) segment is lowercased wholesale. -/
theorem camel_idempotent_claim_cex :
    camelStem "foo_bar" = "fooBar" ∧
    (∀ c ∈ ("fooBar" : String).data, isSep c = false) ∧
    camelStem "fooBar" = "foobar" ∧
    ("foobar" : String) ≠ "fooBar" := by
  decide

theorem splitSingle_sepfree (cs : List Char) :
    ∀ cur : List Char, (∀ c ∈ cs, isSep c = false) →
      splitSingle cs cur = [String.mk (cur.reverse ++ cs)] := by
  induction cs with
  | nil =>
      intro cur h
      simp [splitSingle]
  | cons c cs ih =>
      intro cur h
      have hc : isSep c = false := h c (List.mem_cons_self c cs)
      rw [splitSingle, if_neg (by simp [hc]),
        ih (c :: cur) (fun x hx => h x (List.mem_cons_of_mem c hx))]
      simp

/-- C8 (amended): on a separator-free string — in particular on camel's own
output whenever that output contains no separators — the camel transform
returns the string lowercased wholesale; so it is idempotent on such output
iff the output is already all-lowercase, not in general. -/
theorem camel_on_sepfree (t : String) (h : ∀ c ∈ t.data, isSep c = false) :
    camelStem t = pyLower t := by
  unfold camelStem splitRuns
  rw [splitSingle_sepfree t.data [] h]
  show pyLower (String.mk ([].reverse ++ t.data)) ++
      String.join (List.map pyCapitalize (dropEmptyMid [])) = pyLower t
  simp [dropEmptyMid, String.join]

theorem camel_on_sepfree_wit :
    camelStem "fooBar" = pyLower "fooBar" :=
  camel_on_sepfree "fooBar" (by decide)

/-! ### Claims about the templated strategy -/

/-- C6, counterexample: the code reads the wall clock inside the loop, once
per file; with a clock that has advanced between the two iterations, two
otherwise identical files get DIFFERENT date stamps in the same invocation,
refuting "every proposed name carries the same stamp". -/
theorem template_stamp_claim_cex :
    rename_with_pattern (fun i => (toString i, "t")) [TemplatePart.date]
        [⟨"d", "a", ".txt", ""⟩, ⟨"d", "a", ".txt", ""⟩] = ["1", "2"] ∧
    ("1" : String) ≠ "2" := by
  decide

theorem rename_with_pattern_go_congr (c1 c2 : Nat → String × String)
    (pat : List TemplatePart) (files : List FileEntry)
    (h : ∀ i, c1 i = c2 i) :
    ∀ i, rename_with_pattern_go c1 pat i files = rename_with_pattern_go c2 pat i files := by
  induction files with
  | nil => intro i; rfl
  | cons f fs ih =>
      intro i
      rw [rename_with_pattern_go, rename_with_pattern_go, h i, ih (i + 1)]

/-- C6 (amended): `{date}`/`{time}` are evaluated once per file, at that
file's own loop iteration; whenever the formatted clock readings agree
across the whole call (the clock does not advance over a formatting
boundary), the result is as if the stamp had been evaluated once per call,
and every proposed name carries that one stamp. -/
theorem template_stamp_constant_clock (clock : Nat → String × String)
    (pat : List TemplatePart) (files : List FileEntry)
    (h : ∀ i j, clock i = clock j) :
    rename_with_pattern clock pat files =
      rename_with_pattern (fun _ => clock 1) pat files :=
  rename_with_pattern_go_congr clock (fun _ => clock 1) pat files (fun i => h i 1) 1

theorem template_stamp_constant_clock_wit :
    rename_with_pattern (fun _ => ("2024-01-01", "12-00-00")) [TemplatePart.date]
        [⟨"d", "a", ".txt", ""⟩] =
      rename_with_pattern (fun _ => (fun _ : Nat => ("2024-01-01", "12-00-00")) 1)
        [TemplatePart.date] [⟨"d", "a", ".txt", ""⟩] :=
  template_stamp_constant_clock (fun _ => ("2024-01-01", "12-00-00"))
    [TemplatePart.date] [⟨"d", "a", ".txt", ""⟩] (fun _ _ => rfl)

/-! ### Claims about the constructor check -/

/-- C7, counterexample: `__init__` only tests `Path.exists()`; a path that
exists as a regular file (here `f.txt`, with no directory of that name)
passes construction instead of failing with `DirectoryNotFound`. -/
theorem init_file_not_dir_cex :
    ([] : List String).contains "f.txt" = false ∧
    (["f.txt"] : List String).contains "f.txt" = true ∧
    fileRenamerInit [] ["f.txt"] "f.txt" = Except.ok () :=
  ⟨rfl, rfl, rfl⟩

/-- C7 (amended): construction fails with the directory-not-found error iff
the path exists neither as a directory nor as a regular file; an existing
non-directory path is accepted. -/
theorem init_fails_iff_not_exists (dirs files : List String) (d : String) :
    fileRenamerInit dirs files d = Except.error ("Directory non trovata: " ++ d) ↔
      (dirs.contains d = false ∧ files.contains d = false) := by
  unfold fileRenamerInit
  split
  · rename_i hin
    constructor
    · intro he
      cases he
    · rintro ⟨h1, h2⟩
      rw [h1, h2] at hin
      cases hin
  · rename_i hin
    simp only [Bool.or_eq_true, not_or, Bool.not_eq_true] at hin
    exact ⟨fun _ => hin, fun _ => rfl⟩

/-! ### Claims about operations-log saving -/

/-- C9: with an empty operations log, `save_operations_log` returns at once:
no effect is performed (no directory creation, no file write, no log entry)
and no error is raised, whatever the format argument. -/
theorem empty_log_no_effects (ts fmt : String) :
    save_operations_log [] ts fmt = ([], none) :=
  rfl

/-- C10: with a non-empty log and a format that is neither `json` nor
`csv`, both write branches are skipped and the final
`logging.info(f"... {log_file}")` reads the never-assigned `log_file`:
the call raises, the only effect performed being the `logs` directory
creation — no log file is written. -/
theorem unknown_format_raises (log : List OpRecord) (ts fmt : String)
    (h1 : log ≠ []) (h2 : fmt ≠ "json") (h3 : fmt ≠ "csv") :
    (save_operations_log log ts fmt).2 =
      some "UnboundLocalError: local variable referenced before assignment" ∧
    (save_operations_log log ts fmt).1 = [LogEffect.mkdirLogs] := by
  unfold save_operations_log
  rw [if_neg h1, if_neg h2, if_neg h3]
  exact ⟨rfl, rfl⟩

theorem unknown_format_raises_wit :
    (save_operations_log [⟨"a", "b", true, none⟩] "T" "xml").2 =
      some "UnboundLocalError: local variable referenced before assignment" ∧
    (save_operations_log [⟨"a", "b", true, none⟩] "T" "xml").1 = [LogEffect.mkdirLogs] :=
  unknown_format_raises [⟨"a", "b", true, none⟩] "T" "xml"
    (by decide) (by decide) (by decide)

end VikRenamer
